import Mathlib

/-!
Shallow embedding of `src/sap1_instruction_compiler.py`, a two-pass SAP-1
assembler, together with proofs about its behaviour.

Python strings are modelled by Lean `String` (a wrapper around `List Char`);
Python's arbitrary-precision `int` is modelled by `Int`, and `x & 0xF` /
`x & 0xFF` on a possibly negative `x` by the Euclidean remainder
`(x % 16).toNat` / `(x % 256).toNat`, which agrees with Python's
two's-complement bitwise `&` against an all-ones mask.  Exceptions are
modelled by `Except AsmError`.
-/

namespace SAP1

/-- Error kinds raised by the assembler: `ValueError` for duplicate labels,
unknown instructions, missing operands and numeric-literal failures of
`int(...)`, and `IndexError` for out-of-range token indexing. -/
inductive AsmError where
  | duplicateLabel (name : String)
  | invalidNumeric (tok : String)
  | indexError
  | unknownInstruction (name : String)
  | missingOperand (name : String) (addr : Nat)
  deriving DecidableEq, Repr

/-- The fixed instruction set `ISA` of the source: mnemonic, opcode,
operand-required flag. -/
def ISA : List (String × Nat × Bool) :=
  [("LDA", (0x1, true)),
   ("LDB", (0x2, true)),
   ("ADD", (0x3, false)),
   ("SHL_A", (0x4, false)),
   ("SHR_A", (0x5, false)),
   ("SHL_B", (0x6, false)),
   ("SHR_B", (0x7, false)),
   ("JUMP", (0x8, true)),
   ("HLT", (0x9, false))]

/-- Characters removed by Python's `str.strip()` (ASCII whitespace). -/
def isPySpace (c : Char) : Bool :=
  c = ' ' || c = '\t' || c = '\n' || c = '\x0d' ||
    c = Char.ofNat 0x0b || c = Char.ofNat 0x0c

/-- Python `s.strip()`: remove leading and trailing whitespace. -/
def pyStrip (s : String) : String :=
  String.mk (((s.toList.dropWhile isPySpace).reverse.dropWhile isPySpace).reverse)

/-- Python `s.lower()` on ASCII text (`str.lower` maps A-Z to a-z). -/
def pyLower (s : String) : String := String.mk (s.toList.map Char.toLower)

/-- Python `s.upper()` on ASCII text (`str.upper` maps a-z to A-Z). -/
def pyUpper (s : String) : String := String.mk (s.toList.map Char.toUpper)

/-- Line-break characters recognised by Python's `str.splitlines`. -/
def isPyLineBreak (c : Char) : Bool :=
  c = '\n' || c = '\x0d' || c = Char.ofNat 0x0b || c = Char.ofNat 0x0c ||
    c = Char.ofNat 0x1c || c = Char.ofNat 0x1d || c = Char.ofNat 0x1e ||
    c = Char.ofNat 0x85 || c = Char.ofNat 0x2028 || c = Char.ofNat 0x2029

/-- Worker for `pySplitlines`: accumulates the current line (reversed). -/
def splitlinesAux : List Char → List Char → List String
  | [], acc => if acc = [] then [] else [String.mk acc.reverse]
  | '\x0d' :: '\n' :: rest, acc => String.mk acc.reverse :: splitlinesAux rest []
  | c :: rest, acc =>
      if isPyLineBreak c then String.mk acc.reverse :: splitlinesAux rest []
      else splitlinesAux rest (c :: acc)

/-- Python `src.splitlines()`: split at line boundaries, `\x0d\n` counting as
one boundary, with no trailing empty line. -/
def pySplitlines (s : String) : List String := splitlinesAux s.toList []

/-- `s.split(c)[0]`: the part of `s` before the first occurrence of `c`
(all of `s` when `c` does not occur). -/
def takeBefore (c : Char) (s : String) : String :=
  String.mk (s.toList.takeWhile (· ≠ c))

/-- Worker for `pySplit`: split a character list into maximal whitespace-free
words, like Python `str.split()` with no argument. -/
def splitWordsAux : List Char → List Char → List String
  | [], acc => if acc = [] then [] else [String.mk acc.reverse]
  | c :: rest, acc =>
      if isPySpace c then
        if acc = [] then splitWordsAux rest []
        else String.mk acc.reverse :: splitWordsAux rest []
      else splitWordsAux rest (c :: acc)

/-- Python `s.split()` (no separator): whitespace-delimited words, empties
discarded. -/
def pySplit (s : String) : List String := splitWordsAux s.toList []

/-- `s.split(c, 1)`: the parts before and after the first occurrence of `c`. -/
def splitFirst (c : Char) (s : String) : String × String :=
  (String.mk (s.toList.takeWhile (· ≠ c)),
   String.mk ((s.toList.dropWhile (· ≠ c)).drop 1))

/-- The value of `c` as a digit in base `b` (0-9, a-z, A-Z), if valid.
Python's `int(s, b)` accepts exactly these digit characters in ASCII. -/
def digitVal? (b : Nat) (c : Char) : Option Nat :=
  let v : Option Nat :=
    if '0' ≤ c ∧ c ≤ '9' then some (c.toNat - '0'.toNat)
    else if 'a' ≤ c ∧ c ≤ 'z' then some (c.toNat - 'a'.toNat + 10)
    else if 'A' ≤ c ∧ c ≤ 'Z' then some (c.toNat - 'A'.toNat + 10)
    else none
  match v with
  | some v => if v < b then some v else none
  | none => none

/-- Worker for `parseDigits`: after the first digit, Python's `int` grammar
is `(["_"] digit)*` — single underscores are allowed between digits. -/
def parseDigitsAux (b : Nat) (acc : Nat) : List Char → Option Nat
  | [] => some acc
  | c :: rest =>
      if c = '_' then
        match rest with
        | c2 :: rest2 =>
          match digitVal? b c2 with
          | some v => parseDigitsAux b (acc * b + v) rest2
          | none => none
        | [] => none
      else
        match digitVal? b c with
        | some v => parseDigitsAux b (acc * b + v) rest
        | none => none

/-- The digit part of Python's `int(s, b)` grammar:
`digit (["_"] digit)*` — nonempty, single underscores only between digits. -/
def parseDigits (b : Nat) : List Char → Option Nat
  | c :: rest =>
      match digitVal? b c with
      | some v => parseDigitsAux b v rest
      | none => none
  | [] => none

/-- Strip a base prefix (`0b`/`0B` for base 2, `0x`/`0X` for base 16) and an
optional single underscore after it, as Python's `int(s, b)` does. -/
def stripBasePrefix (b : Nat) : List Char → List Char
  | c0 :: c1 :: rest =>
      if c0 = '0' ∧
          ((b = 2 ∧ (c1 = 'b' ∨ c1 = 'B')) ∨ (b = 16 ∧ (c1 = 'x' ∨ c1 = 'X'))) then
        match rest with
        | r :: rest2 => if r = '_' then rest2 else r :: rest2
        | [] => []
      else c0 :: c1 :: rest
  | cs => cs

/-- Python `int(s, b)` for `b ∈ {2, 10, 16}`: surrounding whitespace, an
optional sign, an optional base prefix, then underscore-separated digits.
`none` models the `ValueError` raised on malformed input. -/
def pyInt (s : String) (b : Nat) : Option Int :=
  let cs := (pyStrip s).toList
  let signed : Int × List Char :=
    match cs with
    | c :: rest =>
        if c = '+' then (1, rest) else if c = '-' then (-1, rest) else (1, c :: rest)
    | [] => (1, [])
  match parseDigits b (stripBasePrefix b signed.2) with
  | some n => some (signed.1 * n)
  | none => none

/-- Python `s.startswith(p)` on whole strings: `p` is a character-level
prefix of `s`. -/
def pyStartsWith (s p : String) : Bool := p.toList.isPrefixOf s.toList

/-- `is_binary_token(s)` from the source:
`s.lower().startswith("0b") and re.fullmatch(r"0b[01]+", s.lower())`. -/
def is_binary_token (s : String) : Bool :=
  let l := pyLower s
  pyStartsWith l "0b" &&
    (match l.toList with
     | c0 :: c1 :: rest =>
         c0 = '0' && c1 = 'b' && rest ≠ [] && rest.all (fun c => c = '0' || c = '1')
     | _ => false)

/-- `parse_number(tok)` from the source: strip, then try strict binary,
then a `0x`/`0X` prefix as hexadecimal, then a loose `0b` prefix as binary,
else decimal.  `none` models the `ValueError` of a failing `int(...)`. -/
def parse_number (tok : String) : Option Int :=
  let tok := pyStrip tok
  if is_binary_token tok then pyInt tok 2
  else if pyStartsWith tok "0x" || pyStartsWith tok "0X" then pyInt tok 16
  else if pyStartsWith (pyLower tok) "0b" then pyInt tok 2
  else pyInt tok 10

/-- `tokenize(src)` from the source: for each line, drop everything from the
first `;` or `#`, strip, and keep the line if nonempty. -/
def tokenize (src : String) : List String :=
  (pySplitlines src).filterMap fun raw =>
    let line := pyStrip (takeBefore '#' (takeBefore ';' raw))
    if line = "" then none else some line

/-- A parsed operation of pass 1: upper-cased first token (or `"NOPLINE"`),
argument tokens, and the program-counter value the line was seen at. -/
abbrev Op := String × List String × Nat

/-- Python `x & 0xF` on a (possibly negative) `int`: the nonnegative
remainder modulo 16. -/
def mask4 (x : Int) : Nat := (x % 16).toNat

/-- Python `x & 0xFF` on a (possibly negative) `int`: the nonnegative
remainder modulo 256. -/
def mask8 (x : Int) : Nat := (x % 256).toNat

/-- Worker for `first_pass`: processes the remaining lines, carrying the
label table, the reversed output list and the program counter. -/
def firstPassAux : List String → List (String × Nat) → List Op → Nat →
    Except AsmError (List (String × Nat) × List Op)
  | [], labels, out, _ => .ok (labels, out.reverse)
  | line :: rest, labels, out, pc =>
    let colon := line.toList.contains ':'
    let lab := if colon then pyStrip (splitFirst ':' line).1 else ""
    let body := if colon then pyStrip (splitFirst ':' line).2 else line
    let labelled : Except AsmError (List (String × Nat)) :=
      if colon && lab ≠ "" then
        if (labels.lookup lab).isSome then .error (.duplicateLabel lab)
        else .ok (labels ++ [(lab, pc)])
      else .ok labels
    match labelled with
    | .error e => .error e
    | .ok labels =>
      if colon && body = "" then
        firstPassAux rest labels (("NOPLINE", [], pc) :: out) pc
      else
        let toks := pySplit (String.mk (body.toList.map
          fun c => if c = ',' then ' ' else c))
        match toks with
        | [] => .error .indexError
        | t0 :: args =>
          let opname := pyUpper t0
          if opname = "ORG" then
            match args with
            | [] => .error .indexError
            | a :: _ =>
              match parse_number a with
              | some v => firstPassAux rest labels ((opname, args, pc) :: out) (mask4 v)
              | none => .error (.invalidNumeric a)
          else firstPassAux rest labels ((opname, args, pc) :: out) ((pc + 1) % 16)

/-- `first_pass(lines)` from the source: collect labels and parsed
operations, threading the program counter from 0. -/
def first_pass (lines : List String) :
    Except AsmError (List (String × Nat) × List Op) :=
  firstPassAux lines [] [] 0

/-- The memory image: a list of byte values. -/
abbrev Mem := List Nat

/-- `(opcode & 0xF) << 4 | (operand & 0xF)` from the source. -/
def encByte (opcode operand : Nat) : Nat :=
  ((opcode % 16) <<< 4) ||| (operand % 16)

/-- One iteration of the pass-2 loop of `assemble` on state `(mem, pc)`. -/
def pass2Step (labels : List (String × Nat)) (st : Mem × Nat) (o : Op) :
    Except AsmError (Mem × Nat) :=
  let op := o.1
  let args := o.2.1
  let tag := o.2.2
  if op = "NOPLINE" then .ok (st.1, tag)
  else if op = "ORG" then
    match args with
    | [] => .error .indexError
    | a :: _ =>
      match parse_number a with
      | some v => .ok (st.1, mask4 v)
      | none => .error (.invalidNumeric a)
  else if op = "DATA" then
    match args with
    | [] => .error .indexError
    | a :: _ =>
      match parse_number a with
      | some v => .ok (st.1.set st.2 (mask8 v), (st.2 + 1) % 16)
      | none => .error (.invalidNumeric a)
  else
    match ISA.lookup op with
    | none => .error (.unknownInstruction op)
    | some (opcode, needs) =>
      let operandE : Except AsmError Nat :=
        if needs then
          match args with
          | [] => .error (.missingOperand op st.2)
          | a :: _ =>
            match labels.lookup a with
            | some v => .ok (v % 16)
            | none =>
              match parse_number a with
              | some v => .ok (mask4 v)
              | none => .error (.invalidNumeric a)
        else .ok 0
      match operandE with
      | .error e => .error e
      | .ok operand => .ok (st.1.set st.2 (encByte opcode operand), (st.2 + 1) % 16)

/-- The pass-2 loop of `assemble`: fold `pass2Step` over the operations,
returning the final `(mem, pc)` state. -/
def pass2 (labels : List (String × Nat)) :
    List Op → Mem × Nat → Except AsmError (Mem × Nat)
  | [], st => .ok st
  | o :: rest, st =>
    match pass2Step labels st o with
    | .error e => .error e
    | .ok st2 => pass2 labels rest st2

/-- `assemble(src)` from the source: run both passes over the tokenized
source and return the 16-byte memory image. -/
def assemble (src : String) : Except AsmError Mem :=
  match first_pass (tokenize src) with
  | .error e => .error e
  | .ok (labels, lines) =>
    match pass2 labels lines (List.replicate 16 0, 0) with
    | .error e => .error e
    | .ok (mem, _) => .ok mem

/-- The label name a line defines, mirroring the label step of
`first_pass`: the stripped text before the first `:`, when nonempty. -/
def lineLabel (line : String) : Option String :=
  if line.toList.contains ':' then
    let lab := pyStrip (splitFirst ':' line).1
    if lab = "" then none else some lab
  else none

/-- The labels defined by a sequence of lines, in order. -/
def definedLabels (lines : List String) : List String :=
  lines.filterMap lineLabel

/-- The positional value of a digit string in base `b`. -/
def digitsVal (b : Nat) (cs : List Char) : Nat :=
  cs.foldl (fun a c => a * b + (digitVal? b c).getD 0) 0

end SAP1

namespace SAP1

/-! ### Helper lemmas on strings and digit parsing -/

theorem mk_toList (s : String) : String.mk s.toList = s := rfl

theorem dropWhile_all_false {p : Char → Bool} :
    ∀ l : List Char, (∀ c ∈ l, p c = false) → l.dropWhile p = l := by
  intro l h
  induction l with
  | nil => rfl
  | cons a l ih =>
    rw [List.dropWhile_cons, h a (List.mem_cons_self a l)]
    simp

theorem pyStrip_no_space (s : String) (h : ∀ c ∈ s.toList, isPySpace c = false) :
    pyStrip s = s := by
  unfold pyStrip
  rw [dropWhile_all_false _ h, dropWhile_all_false, List.reverse_reverse, mk_toList]
  intro c hc
  exact h c (List.mem_reverse.mp hc)

theorem digitVal?_underscore (b : Nat) : digitVal? b '_' = none := rfl

theorem digitVal?_isSome_ranges {b : Nat} {c : Char}
    (h : (digitVal? b c).isSome) :
    ('0' ≤ c ∧ c ≤ '9') ∨ ('a' ≤ c ∧ c ≤ 'z') ∨ ('A' ≤ c ∧ c ≤ 'Z') := by
  by_cases h1 : '0' ≤ c ∧ c ≤ '9'
  · exact Or.inl h1
  by_cases h2 : 'a' ≤ c ∧ c ≤ 'z'
  · exact Or.inr (Or.inl h2)
  by_cases h3 : 'A' ≤ c ∧ c ≤ 'Z'
  · exact Or.inr (Or.inr h3)
  exfalso
  simp only [digitVal?, if_neg h1, if_neg h2, if_neg h3] at h
  simp at h

theorem not_space_of_digit {b : Nat} {c : Char} (h : (digitVal? b c).isSome) :
    isPySpace c = false := by
  have hr := digitVal?_isSome_ranges h
  have h48 : 48 ≤ c.toNat := by
    rcases hr with ⟨h1, _⟩ | ⟨h1, _⟩ | ⟨h1, _⟩
    · have g : ('0').toNat ≤ c.toNat := h1
      have g2 : 48 ≤ c.toNat := by simpa using g
      omega
    · have g : ('a').toNat ≤ c.toNat := h1
      have g2 : 97 ≤ c.toNat := by simpa using g
      omega
    · have g : ('A').toNat ≤ c.toNat := h1
      have g2 : 65 ≤ c.toNat := by simpa using g
      omega
  have hne : ∀ d : Char, d.toNat < 48 → ¬ c = d := by
    intro d hd hcd
    rw [hcd] at h48
    omega
  simp only [isPySpace, Bool.or_eq_false_iff, decide_eq_false_iff_not]
  exact ⟨⟨⟨⟨⟨hne _ (by decide), hne _ (by decide)⟩, hne _ (by decide)⟩,
    hne _ (by decide)⟩, hne _ (by decide)⟩, hne _ (by decide)⟩

theorem digitVal?_isSome10 {c : Char} (h1 : '0' ≤ c) (h2 : c ≤ '9') :
    (digitVal? 10 c).isSome := by
  have g1 : ('0').toNat ≤ c.toNat := h1
  have g2 : c.toNat ≤ ('9').toNat := h2
  have g1' : 48 ≤ c.toNat := by simpa using g1
  have g2' : c.toNat ≤ 57 := by simpa using g2
  have hlt : c.toNat - ('0').toNat < 10 := by
    have h0 : ('0').toNat = 48 := by decide
    omega
  simp only [digitVal?, if_pos (And.intro h1 h2), if_pos hlt, Option.isSome_some]

theorem parseDigitsAux_digits (b : Nat) :
    ∀ (cs : List Char) (acc : Nat), (∀ c ∈ cs, (digitVal? b c).isSome) →
      parseDigitsAux b acc cs =
        some (cs.foldl (fun a c => a * b + (digitVal? b c).getD 0) acc) := by
  intro cs
  induction cs with
  | nil => intro acc _; rfl
  | cons c cs ih =>
    intro acc h
    have hc : (digitVal? b c).isSome := h c (List.mem_cons_self c cs)
    have hcu : c ≠ '_' := by
      rintro rfl
      rw [digitVal?_underscore] at hc
      simp at hc
    obtain ⟨v, hv⟩ := Option.isSome_iff_exists.mp hc
    have step : parseDigitsAux b acc (c :: cs) = parseDigitsAux b (acc * b + v) cs := by
      rw [parseDigitsAux.eq_def]
      simp only [if_neg hcu, hv]
    have harg : acc * b + v = acc * b + (digitVal? b c).getD 0 := by rw [hv]; rfl
    rw [step, List.foldl_cons, harg]
    exact ih _ (fun d hd => h d (List.mem_cons_of_mem c hd))

theorem parseDigits_digits (b : Nat) (cs : List Char) (hne : cs ≠ [])
    (h : ∀ c ∈ cs, (digitVal? b c).isSome) :
    parseDigits b cs = some (digitsVal b cs) := by
  cases cs with
  | nil => exact absurd rfl hne
  | cons c cs =>
    have hc : (digitVal? b c).isSome := h c (List.mem_cons_self c cs)
    obtain ⟨v, hv⟩ := Option.isSome_iff_exists.mp hc
    have step : parseDigits b (c :: cs) = parseDigitsAux b v cs := by
      simp only [parseDigits, hv]
    rw [step, parseDigitsAux_digits b cs v (fun d hd => h d (List.mem_cons_of_mem c hd))]
    unfold digitsVal
    rw [List.foldl_cons]
    have harg : v = 0 * b + (digitVal? b c).getD 0 := by rw [hv]; simp
    rw [← harg]

end SAP1

namespace SAP1

theorem toList_mk (cs : List Char) : (String.mk cs).toList = cs := rfl

theorem stripBasePrefix_ten : ∀ cs : List Char, stripBasePrefix 10 cs = cs := by
  intro cs
  match cs with
  | [] => rfl
  | [c] => rfl
  | c0 :: c1 :: rest =>
    rw [stripBasePrefix.eq_def]
    simp only []
    rw [if_neg]
    rintro ⟨_, (⟨h10, _⟩ | ⟨h10, _⟩)⟩ <;> simp at h10

theorem stripBasePrefix_prefixed (b : Nat) (c1 d : Char) (ds : List Char)
    (hpre : (b = 2 ∧ (c1 = 'b' ∨ c1 = 'B')) ∨ (b = 16 ∧ (c1 = 'x' ∨ c1 = 'X')))
    (hd : d ≠ '_') :
    stripBasePrefix b ('0' :: c1 :: d :: ds) = d :: ds := by
  rcases hpre with ⟨rfl, h | h⟩ | ⟨rfl, h | h⟩ <;> subst h <;>
    · rw [stripBasePrefix.eq_def]
      simp [hd]

theorem pyStrip_mk_digits (b : Nat) (cs : List Char)
    (h : ∀ c ∈ cs, (digitVal? b c).isSome) :
    pyStrip (String.mk cs) = String.mk cs :=
  pyStrip_no_space _ (fun c hc => not_space_of_digit (h c hc))

theorem pyInt_prefixed (b : Nat) (c1 : Char) (ds : List Char)
    (hpre : (b = 2 ∧ (c1 = 'b' ∨ c1 = 'B')) ∨ (b = 16 ∧ (c1 = 'x' ∨ c1 = 'X')))
    (hne : ds ≠ []) (hd : ∀ c ∈ ds, (digitVal? b c).isSome) :
    pyInt (String.mk ('0' :: c1 :: ds)) b = some ((digitsVal b ds : Nat) : Int) := by
  have hnospace : ∀ c ∈ ('0' :: c1 :: ds), isPySpace c = false := by
    intro c hc
    rcases List.mem_cons.mp hc with rfl | hc
    · decide
    rcases List.mem_cons.mp hc with rfl | hc
    · rcases hpre with ⟨_, h | h⟩ | ⟨_, h | h⟩ <;> subst h <;> decide
    · exact not_space_of_digit (hd c hc)
  have hstrip : pyStrip (String.mk ('0' :: c1 :: ds)) = String.mk ('0' :: c1 :: ds) :=
    pyStrip_no_space _ hnospace
  obtain ⟨d, ds2, rfl⟩ : ∃ d ds2, ds = d :: ds2 := by
    cases ds with
    | nil => exact absurd rfl hne
    | cons d ds2 => exact ⟨d, ds2, rfl⟩
  have hdu : d ≠ '_' := by
    intro h
    have hm := hd d (List.mem_cons_self d ds2)
    rw [h, digitVal?_underscore] at hm
    simp at hm
  unfold pyInt
  rw [hstrip]
  simp only [toList_mk]
  rw [if_neg (by decide : ¬('0' : Char) = '+'), if_neg (by decide : ¬('0' : Char) = '-')]
  simp only []
  rw [stripBasePrefix_prefixed b c1 d ds2 hpre hdu,
    parseDigits_digits b (d :: ds2) (by simp) hd]
  simp

theorem pyInt_digits10 (ds : List Char) (hne : ds ≠ [])
    (hd : ∀ c ∈ ds, '0' ≤ c ∧ c ≤ '9') :
    pyInt (String.mk ds) 10 = some ((digitsVal 10 ds : Nat) : Int) := by
  have hds : ∀ c ∈ ds, (digitVal? 10 c).isSome := by
    intro c hc
    exact digitVal?_isSome10 (hd c hc).1 (hd c hc).2
  have hstrip : pyStrip (String.mk ds) = String.mk ds := pyStrip_mk_digits 10 ds hds
  obtain ⟨d, ds2, rfl⟩ : ∃ d ds2, ds = d :: ds2 := by
    cases ds with
    | nil => exact absurd rfl hne
    | cons d ds2 => exact ⟨d, ds2, rfl⟩
  have h0 : '0' ≤ d := (hd d (List.mem_cons_self d ds2)).1
  have hdp : ¬ d = '+' := by
    rintro rfl
    revert h0
    decide
  have hdm : ¬ d = '-' := by
    rintro rfl
    revert h0
    decide
  unfold pyInt
  rw [hstrip]
  simp only [toList_mk]
  rw [if_neg hdp, if_neg hdm]
  simp only []
  rw [stripBasePrefix_ten, parseDigits_digits 10 (d :: ds2) (by simp) hds]
  simp

end SAP1

namespace SAP1

theorem map_self (f : Char → Char) : ∀ l : List Char, (∀ c ∈ l, f c = c) → l.map f = l := by
  intro l h
  induction l with
  | nil => rfl
  | cons a l ih =>
    rw [List.map_cons, h a (List.mem_cons_self a l),
      ih (fun c hc => h c (List.mem_cons_of_mem a hc))]

theorem toLower_of_lt65 (c : Char) (h : c.toNat < 65) : c.toLower = c := by
  unfold Char.toLower
  rw [if_neg (by omega)]

theorem toLower_digit {c : Char} (h2 : c ≤ '9') : c.toLower = c := by
  have g2 : c.toNat ≤ ('9').toNat := h2
  have g2' : c.toNat ≤ 57 := by simpa using g2
  exact toLower_of_lt65 c (by omega)

theorem pyStartsWith_iff {s p : String} : pyStartsWith s p = true ↔ p.toList <+: s.toList := by
  simp [pyStartsWith]

theorem parse_number_eq_bin (tok : String) (h : is_binary_token (pyStrip tok) = true) :
    parse_number tok = pyInt (pyStrip tok) 2 := by
  simp [parse_number, h]

theorem parse_number_eq_hex (tok : String) (h1 : is_binary_token (pyStrip tok) = false)
    (h2 : (pyStartsWith (pyStrip tok) "0x" || pyStartsWith (pyStrip tok) "0X") = true) :
    parse_number tok = pyInt (pyStrip tok) 16 := by
  simp [parse_number, h1, h2]

theorem parse_number_eq_bin_loose (tok : String)
    (h1 : is_binary_token (pyStrip tok) = false)
    (h2 : (pyStartsWith (pyStrip tok) "0x" || pyStartsWith (pyStrip tok) "0X") = false)
    (h3 : pyStartsWith (pyLower (pyStrip tok)) "0b" = true) :
    parse_number tok = pyInt (pyStrip tok) 2 := by
  simp [parse_number, h1, h2, h3]

theorem parse_number_eq_dec (tok : String)
    (h1 : is_binary_token (pyStrip tok) = false)
    (h2 : (pyStartsWith (pyStrip tok) "0x" || pyStartsWith (pyStrip tok) "0X") = false)
    (h3 : pyStartsWith (pyLower (pyStrip tok)) "0b" = false) :
    parse_number tok = pyInt (pyStrip tok) 10 := by
  simp [parse_number, h1, h2, h3]

end SAP1

namespace SAP1

theorem is_binary_token_of_strict (t : String) (c1 : Char) (ds : List Char)
    (hds : t.toList = '0' :: c1 :: ds) (hc1 : c1 = 'b' ∨ c1 = 'B')
    (hne : ds ≠ []) (hd : ∀ c ∈ ds, c = '0' ∨ c = '1') :
    is_binary_token t = true := by
  have hmap : ds.map Char.toLower = ds :=
    map_self _ ds (fun c hc => by rcases hd c hc with rfl | rfl <;> rfl)
  have hlt : (pyLower t).toList = '0' :: 'b' :: ds := by
    simp only [pyLower, toList_mk, hds, List.map_cons, hmap]
    rcases hc1 with rfl | rfl <;> rfl
  have hlt2 : (pyLower t).data = '0' :: 'b' :: ds := hlt
  have hall : ds.all (fun c => c = '0' || c = '1') = true := by
    rw [List.all_eq_true]
    intro c hc
    rcases hd c hc with rfl | rfl <;> rfl
  simp [is_binary_token, pyStartsWith, hlt2, hne, hall]

end SAP1

namespace SAP1

theorem is_binary_token_false_of_second (t : String) (c1 : Char) (ds : List Char)
    (hds : t.toList = '0' :: c1 :: ds) (h : ¬ Char.toLower c1 = 'b') :
    is_binary_token t = false := by
  have hlt2 : (pyLower t).data = '0' :: Char.toLower c1 :: ds.map Char.toLower := by
    simp only [pyLower, toList_mk, hds, List.map_cons]
    rfl
  have h' : ¬ ('b' = Char.toLower c1) := fun he => h he.symm
  simp [is_binary_token, pyStartsWith, hlt2, h, h']

theorem dispatch_conditions_of_digits (t : String)
    (hd : ∀ c ∈ t.toList, '0' ≤ c ∧ c ≤ '9') :
    is_binary_token t = false ∧
    (pyStartsWith t "0x" || pyStartsWith t "0X") = false ∧
    pyStartsWith (pyLower t) "0b" = false := by
  have hlow : pyLower t = t := by
    unfold pyLower
    rw [map_self _ _ (fun c hc => toLower_digit (hd c hc).2), mk_toList]
  have hx : ∀ p : Char, ¬ ('0' ≤ p ∧ p ≤ '9') →
      List.isPrefixOf ['0', p] t.toList = false := by
    intro p hp
    cases hpx : List.isPrefixOf ['0', p] t.toList with
    | false => rfl
    | true =>
      exfalso
      have hpre : ['0', p] <+: t.toList := by simpa using hpx
      obtain ⟨tail, htail⟩ := hpre
      have hmem : p ∈ t.toList := by
        rw [← htail]
        simp
      exact hp (hd p hmem)
  have hx1 : pyStartsWith t "0x" = false := hx 'x' (by decide)
  have hx2 : pyStartsWith t "0X" = false := hx 'X' (by decide)
  have hb : pyStartsWith (pyLower t) "0b" = false := by
    rw [hlow]
    exact hx 'b' (by decide)
  refine ⟨?_, ?_, hb⟩
  · simp only [is_binary_token]
    rw [hlow]
    have hb' : pyStartsWith t "0b" = false := by
      rw [← hlow]
      exact hb
    simp [hb']
  · simp [hx1, hx2]

theorem hex_dispatch_true (t : String) (c1 : Char) (ds : List Char)
    (hds : t.toList = '0' :: c1 :: ds) (hc1 : c1 = 'x' ∨ c1 = 'X') :
    (pyStartsWith t "0x" || pyStartsWith t "0X") = true := by
  have hds2 : t.data = '0' :: c1 :: ds := hds
  rcases hc1 with rfl | rfl <;> simp [pyStartsWith, hds2]

end SAP1

namespace SAP1

/-- **C1** (amended).  `parse_number` tries formats in priority order: a
(stripped) token that is `0b` or `0B` followed by one or more binary digits
yields the base-2 value of those digits; otherwise a token starting with
`0x`/`0X` is converted in base 16, yielding the base-16 value of well-formed
hex digit strings; otherwise a token whose lower-casing starts with `0b` is
handed to the base-2 fallback conversion — which fails for tokens with
non-binary digit characters such as `"0b2"`, but does not fail on every
non-strict `0b` token (underscore-separated digits such as `"0b1_0"`
succeed); any other token is converted in base 10, yielding the base-10
value of an all-decimal-digit token. -/
theorem parse_number_priority (tok : String) :
    (∀ c1 ds, (pyStrip tok).toList = '0' :: c1 :: ds → (c1 = 'b' ∨ c1 = 'B') →
      ds ≠ [] → (∀ c ∈ ds, c = '0' ∨ c = '1') →
      parse_number tok = some ((digitsVal 2 ds : Nat) : Int)) ∧
    (is_binary_token (pyStrip tok) = false →
      (pyStartsWith (pyStrip tok) "0x" || pyStartsWith (pyStrip tok) "0X") = true →
      parse_number tok = pyInt (pyStrip tok) 16) ∧
    (∀ c1 ds, (pyStrip tok).toList = '0' :: c1 :: ds → (c1 = 'x' ∨ c1 = 'X') →
      ds ≠ [] → (∀ c ∈ ds, (digitVal? 16 c).isSome) →
      parse_number tok = some ((digitsVal 16 ds : Nat) : Int)) ∧
    (is_binary_token (pyStrip tok) = false →
      (pyStartsWith (pyStrip tok) "0x" || pyStartsWith (pyStrip tok) "0X") = false →
      pyStartsWith (pyLower (pyStrip tok)) "0b" = true →
      parse_number tok = pyInt (pyStrip tok) 2) ∧
    (is_binary_token (pyStrip tok) = false →
      (pyStartsWith (pyStrip tok) "0x" || pyStartsWith (pyStrip tok) "0X") = false →
      pyStartsWith (pyLower (pyStrip tok)) "0b" = false →
      parse_number tok = pyInt (pyStrip tok) 10) ∧
    ((pyStrip tok).toList ≠ [] → (∀ c ∈ (pyStrip tok).toList, '0' ≤ c ∧ c ≤ '9') →
      parse_number tok = some ((digitsVal 10 (pyStrip tok).toList : Nat) : Int)) ∧
    parse_number "0b2" = none ∧ parse_number "0b1_0" = some 2 := by
  refine ⟨?_, ?_, ?_, ?_, ?_, ?_, rfl, rfl⟩
  · intro c1 ds hds hc1 hne hd
    have hb := is_binary_token_of_strict (pyStrip tok) c1 ds hds hc1 hne hd
    have hd2 : ∀ c ∈ ds, (digitVal? 2 c).isSome := by
      intro c hc
      rcases hd c hc with rfl | rfl <;> rfl
    rw [parse_number_eq_bin tok hb, ← mk_toList (pyStrip tok), hds]
    exact pyInt_prefixed 2 c1 ds (Or.inl ⟨rfl, hc1⟩) hne hd2
  · intro h1 h2
    exact parse_number_eq_hex tok h1 h2
  · intro c1 ds hds hc1 hne hd
    have hbinf := is_binary_token_false_of_second (pyStrip tok) c1 ds hds
      (by rcases hc1 with rfl | rfl <;> decide)
    have hdisp := hex_dispatch_true (pyStrip tok) c1 ds hds hc1
    rw [parse_number_eq_hex tok hbinf hdisp, ← mk_toList (pyStrip tok), hds]
    exact pyInt_prefixed 16 c1 ds (Or.inr ⟨rfl, hc1⟩) hne hd
  · intro h1 h2 h3
    exact parse_number_eq_bin_loose tok h1 h2 h3
  · intro h1 h2 h3
    exact parse_number_eq_dec tok h1 h2 h3
  · intro hne hd
    obtain ⟨hb, hx, hl⟩ := dispatch_conditions_of_digits (pyStrip tok) hd
    rw [parse_number_eq_dec tok hb hx hl]
    have h := pyInt_digits10 (pyStrip tok).toList hne hd
    rwa [mk_toList] at h

end SAP1

namespace SAP1

/-- **C1** counterexample: `"0b1_0"` begins with `0b`, does not match the
strict binary-digit pattern of `is_binary_token`, and yet `parse_number`
returns a value (2) instead of failing, contradicting the claim as stated. -/
theorem parse_number_priority_counterexample :
    pyStartsWith (pyLower (pyStrip "0b1_0")) "0b" = true ∧
    is_binary_token (pyStrip "0b1_0") = false ∧
    parse_number "0b1_0" = some 2 :=
  ⟨rfl, rfl, rfl⟩

/-- Witness for `parse_number_priority`, applying it at concrete tokens of
each format. -/
theorem parse_number_priority_witness :
    parse_number "0b101" = some 5 ∧ parse_number "0x1F" = some 31 ∧
      parse_number "12" = some 12 := by
  refine ⟨?_, ?_, ?_⟩
  · have h := (parse_number_priority "0b101").1 'b' ['1', '0', '1'] rfl
      (Or.inl rfl) (by decide) (by decide)
    exact h.trans rfl
  · have h := (parse_number_priority "0x1F").2.2.1 'x' ['1', 'F'] rfl
      (Or.inl rfl) (by decide) (by decide)
    exact h.trans rfl
  · have h := (parse_number_priority "12").2.2.2.2.2.1 (by decide) (by decide)
    exact h.trans rfl

end SAP1

namespace SAP1

theorem firstPassAux_error_kinds :
    ∀ (lines : List String) (labels : List (String × Nat)) (out : List Op) (pc : Nat)
      (e : AsmError), firstPassAux lines labels out pc = .error e →
      (∃ n, e = AsmError.duplicateLabel n) ∨ (∃ t, e = AsmError.invalidNumeric t) ∨
        e = AsmError.indexError := by
  intro lines
  induction lines with
  | nil =>
    intro labels out pc e h
    simp [firstPassAux] at h
  | cons line rest ih =>
    intro labels out pc e h
    simp only [firstPassAux] at h
    split at h
    next e2 heq =>
      cases h
      repeat' split at heq
      all_goals first
        | (cases heq; exact Or.inl ⟨_, rfl⟩)
        | simp at heq
    next labels2 heq =>
      repeat' split at h
      all_goals first
        | exact ih _ _ _ _ h
        | (cases h; exact Or.inl ⟨_, rfl⟩)
        | (cases h; exact Or.inr (Or.inl ⟨_, rfl⟩))
        | (cases h; exact Or.inr (Or.inr rfl))
        | simp at h

end SAP1

namespace SAP1

/-- **C2** (amended).  Pass 1 either returns the label table and operation
list or fails, and its failure kinds are exactly: `DuplicateLabel`, or — for
an `ORG` directive whose argument is missing or not a parseable numeric
literal — an index error or a numeric-literal error.  It never fails with
`UnknownInstruction` or `MissingOperand`. -/
theorem first_pass_error_kinds (lines : List String) (e : AsmError)
    (h : first_pass lines = .error e) :
    (∃ n, e = AsmError.duplicateLabel n) ∨ (∃ t, e = AsmError.invalidNumeric t) ∨
      e = AsmError.indexError :=
  firstPassAux_error_kinds lines [] [] 0 e h

/-- **C2** counterexample: a malformed `ORG` argument makes pass 1 fail with
a numeric-literal error, and a missing one with an index error — not with
`DuplicateLabel`, which the claim says is the only failure kind of pass 1. -/
theorem first_pass_error_kinds_counterexample :
    first_pass ["ORG zz"] = .error (.invalidNumeric "zz") ∧
      first_pass ["ORG"] = .error .indexError :=
  ⟨rfl, rfl⟩

/-- Witness for `first_pass_error_kinds` at the line list `["ORG zz"]`. -/
theorem first_pass_error_kinds_witness :
    (∃ n, AsmError.invalidNumeric "zz" = AsmError.duplicateLabel n) ∨
    (∃ t, AsmError.invalidNumeric "zz" = AsmError.invalidNumeric t) ∨
    AsmError.invalidNumeric "zz" = AsmError.indexError :=
  first_pass_error_kinds ["ORG zz"] (AsmError.invalidNumeric "zz") rfl

end SAP1

namespace SAP1

/-- **C3**.  A label defined after its use resolves to the same address as
one defined before its use: assembling `"JUMP end\nHLT\nend: HLT"` succeeds
and byte 0 of the memory image is `(0x8 <<< 4) ||| 2 = 0x82`. -/
theorem forward_label_resolution :
    assemble "JUMP end\nHLT\nend: HLT" =
      .ok (0x82 :: 0x90 :: 0x90 :: List.replicate 13 0) ∧
    encByte 0x8 2 = 0x82 :=
  ⟨rfl, rfl⟩

/-- **C6**.  `"ORG 0x0A\nDATA 0xFF"` assembles with bytes 0-9 zero and byte
10 equal to `0xFF`, and the pass-2 program counter after the `DATA`
operation is 11. -/
theorem org_data_placement :
    first_pass (tokenize "ORG 0x0A\nDATA 0xFF") =
      .ok ([], [("ORG", ["0x0A"], 0), ("DATA", ["0xFF"], 10)]) ∧
    pass2 [] [("ORG", ["0x0A"], 0), ("DATA", ["0xFF"], 10)] (List.replicate 16 0, 0) =
      .ok (List.replicate 10 0 ++ 0xFF :: List.replicate 5 0, 11) ∧
    assemble "ORG 0x0A\nDATA 0xFF" =
      .ok (List.replicate 10 0 ++ 0xFF :: List.replicate 5 0) :=
  ⟨rfl, rfl, rfl⟩

/-- **C8**.  Assembly is deterministic: two runs of `assemble` on identical
source strings produce identical outcomes (same bytes or same error). -/
theorem assemble_deterministic (s1 s2 : String) (h : s1 = s2) :
    assemble s1 = assemble s2 := by rw [h]

/-- Witness for `assemble_deterministic` at the source `"HLT"`. -/
theorem assemble_deterministic_witness : assemble "HLT" = assemble "HLT" :=
  assemble_deterministic "HLT" "HLT" rfl

/-- **C10**.  Mnemonic matching is case-insensitive — `"hlt"` and `"HLT"`
assemble identically because pass 1 upper-cases the first token — while
label matching is case-sensitive: label definitions differing only in case
get distinct entries (no `DuplicateLabel`), and an operand whose case
differs from a defined label is not resolved as that label but falls
through to numeric parsing (and fails there when not numeric). -/
theorem mnemonic_case_insensitive_labels_case_sensitive :
    assemble "hlt" = assemble "HLT" ∧
    assemble "hlt" = .ok (0x90 :: List.replicate 15 0) ∧
    first_pass ["hlt"] = .ok ([], [("HLT", [], 0)]) ∧
    first_pass ["Foo: HLT", "foo: HLT"] =
      .ok ([("Foo", 0), ("foo", 1)], [("HLT", [], 0), ("HLT", [], 1)]) ∧
    assemble "JUMP END\nend: HLT" = .error (.invalidNumeric "END") :=
  ⟨rfl, rfl, rfl, rfl, rfl⟩

end SAP1

namespace SAP1

theorem ISA_lookup_not_directive {op : String} {p : Nat × Bool}
    (h : List.lookup op ISA = some p) :
    ¬ op = "NOPLINE" ∧ ¬ op = "ORG" ∧ ¬ op = "DATA" := by
  refine ⟨?_, ?_, ?_⟩ <;> rintro rfl <;> simp [ISA, List.lookup] at h

/-- **C4**.  For instruction operands in pass 2, label lookup takes priority
over numeric parsing: when the operand token is in the label table the
encoded low nibble is that label's address masked to 4 bits (whether or not
the token would parse as a number), and numeric parsing is used only when
the token is not in the label table. -/
theorem operand_label_priority (labels : List (String × Nat)) (mem : Mem)
    (pc : Nat) (op a : String) (rest : List String) (tag : Nat)
    (opcode : Nat) (h : List.lookup op ISA = some (opcode, true)) :
    (∀ v, List.lookup a labels = some v →
      pass2Step labels (mem, pc) (op, a :: rest, tag) =
        .ok (mem.set pc (encByte opcode (v % 16)), (pc + 1) % 16)) ∧
    (List.lookup a labels = none →
      pass2Step labels (mem, pc) (op, a :: rest, tag) =
        (match parse_number a with
         | some w => .ok (mem.set pc (encByte opcode (mask4 w)), (pc + 1) % 16)
         | none => .error (.invalidNumeric a))) := by
  obtain ⟨h1, h2, h3⟩ := ISA_lookup_not_directive h
  constructor
  · intro v hv
    simp [pass2Step, h1, h2, h3, h, hv]
  · intro hv
    simp only [pass2Step, if_neg h1, if_neg h2, if_neg h3, h, hv]
    cases parse_number a <;> rfl

/-- Witness for `operand_label_priority`: the token `"15"` is both a valid
label (bound to address 3) and a valid number; the label address wins. -/
theorem operand_label_priority_witness :
    pass2Step [("15", 3)] (List.replicate 16 0, 0) ("LDA", ["15"], 0) =
      .ok ((List.replicate 16 0).set 0 0x13, 1) :=
  (operand_label_priority [("15", 3)] (List.replicate 16 0) 0 "LDA" "15" [] 0 1
    rfl).1 3 rfl

end SAP1

namespace SAP1

/-- **C9**.  Label resolution applies only to instruction operands, never to
directive arguments: the pass-2 treatment of `DATA` and `ORG` arguments is
independent of the label table, and when the argument is a defined label
name that is not a valid numeric literal the step fails with a
numeric-literal error.  Concretely, `"x: HLT\nDATA x"` fails with
`InvalidNumericLiteral("x")` although `x` is a defined label. -/
theorem directive_args_not_resolved (labels : List (String × Nat))
    (st : Mem × Nat) (a : String) (rest : List String) (tag : Nat) :
    (pass2Step labels st ("DATA", a :: rest, tag) =
      pass2Step [] st ("DATA", a :: rest, tag)) ∧
    (pass2Step labels st ("ORG", a :: rest, tag) =
      pass2Step [] st ("ORG", a :: rest, tag)) ∧
    (parse_number a = none →
      pass2Step labels st ("DATA", a :: rest, tag) = .error (.invalidNumeric a) ∧
      pass2Step labels st ("ORG", a :: rest, tag) = .error (.invalidNumeric a)) ∧
    assemble "x: HLT\nDATA x" = .error (.invalidNumeric "x") := by
  refine ⟨rfl, rfl, ?_, rfl⟩
  intro hp
  constructor
  · simp [pass2Step, hp]
  · simp [pass2Step, hp]

/-- Witness for `directive_args_not_resolved`: `DATA x` fails numerically
even though `x` is in the label table. -/
theorem directive_args_not_resolved_witness :
    pass2Step [("x", 0)] (List.replicate 16 0, 1) ("DATA", ["x"], 1) =
      .error (.invalidNumeric "x") :=
  ((directive_args_not_resolved [("x", 0)] (List.replicate 16 0, 1) "x" [] 1).2.2.1
    rfl).1

end SAP1

namespace SAP1

theorem mask4_lt (v : Int) : mask4 v < 16 := by
  unfold mask4
  have h1 : 0 ≤ v % 16 := Int.emod_nonneg v (by norm_num)
  have h2 : v % 16 < 16 := Int.emod_lt_of_pos v (by norm_num)
  omega

theorem mask8_lt (v : Int) : mask8 v < 256 := by
  unfold mask8
  have h1 : 0 ≤ v % 256 := Int.emod_nonneg v (by norm_num)
  have h2 : v % 256 < 256 := Int.emod_lt_of_pos v (by norm_num)
  omega

theorem encByte_lt (a b : Nat) : encByte a b < 256 := by
  have hpow : (2 : Nat) ^ 4 = 16 := by norm_num
  have h1 : b % 16 < 2 ^ 4 := by
    have := Nat.mod_lt b (show 0 < 16 by omega)
    omega
  have h2 : a % 16 < 2 ^ 4 := by
    have := Nat.mod_lt a (show 0 < 16 by omega)
    omega
  have h := @Nat.append_lt (b % 16) (a % 16) 4 4 h1 h2
  have h256 : (2 : Nat) ^ (4 + 4) = 256 := by norm_num
  rw [h256] at h
  exact h

theorem memOK_set (m : Mem) (i v : Nat) (hlen : m.length = 16)
    (hmem : ∀ x ∈ m, x < 256) (hv : v < 256) :
    (m.set i v).length = 16 ∧ ∀ x ∈ m.set i v, x < 256 := by
  refine ⟨by simpa using hlen, ?_⟩
  intro x hx
  rcases List.mem_or_eq_of_mem_set hx with hx' | rfl
  · exact hmem x hx'
  · exact hv

theorem pass2Step_preserves (labels : List (String × Nat)) (st st2 : Mem × Nat)
    (o : Op) (h : pass2Step labels st o = .ok st2)
    (hlen : st.1.length = 16) (hmem : ∀ x ∈ st.1, x < 256) :
    st2.1.length = 16 ∧ ∀ x ∈ st2.1, x < 256 := by
  simp only [pass2Step] at h
  repeat' split at h
  all_goals first
    | (cases h; exact ⟨hlen, hmem⟩)
    | (cases h; exact memOK_set _ _ _ hlen hmem (mask8_lt _))
    | (cases h; exact memOK_set _ _ _ hlen hmem (encByte_lt _ _))
    | cases h

theorem pass2Step_pc_lt (labels : List (String × Nat)) (st st2 : Mem × Nat)
    (o : Op) (h : pass2Step labels st o = .ok st2) (htag : o.2.2 < 16) :
    st2.2 < 16 := by
  simp only [pass2Step] at h
  repeat' split at h
  all_goals first
    | (cases h; exact htag)
    | (cases h; exact mask4_lt _)
    | (cases h; exact Nat.mod_lt _ (by omega))
    | cases h

theorem pass2_memOK (labels : List (String × Nat)) :
    ∀ (ops : List Op) (st st2 : Mem × Nat),
      pass2 labels ops st = .ok st2 → st.1.length = 16 → (∀ x ∈ st.1, x < 256) →
      st2.1.length = 16 ∧ ∀ x ∈ st2.1, x < 256 := by
  intro ops
  induction ops with
  | nil =>
    intro st st2 h hl hm
    cases h
    exact ⟨hl, hm⟩
  | cons o rest ih =>
    intro st st2 h hl hm
    simp only [pass2] at h
    split at h
    · cases h
    next st3 heq =>
      obtain ⟨hl2, hm2⟩ := pass2Step_preserves labels st st3 o heq hl hm
      exact ih st3 st2 h hl2 hm2

theorem firstPassAux_tags :
    ∀ (lines : List String) (labels : List (String × Nat)) (out : List Op) (pc : Nat)
      (r : List (String × Nat) × List Op),
      firstPassAux lines labels out pc = .ok r → pc < 16 →
      (∀ o ∈ out, o.2.2 < 16) → ∀ o ∈ r.2, o.2.2 < 16 := by
  intro lines
  induction lines with
  | nil =>
    intro labels out pc r h hpc hout o ho
    simp only [firstPassAux] at h
    cases h
    exact hout o (List.mem_reverse.mp ho)
  | cons line rest ih =>
    intro labels out pc r h hpc hout o ho
    simp only [firstPassAux] at h
    repeat' split at h
    all_goals first
      | cases h
      | (refine ih _ _ _ r h ?_ ?_ o ho
         · first
           | exact hpc
           | exact mask4_lt _
           | exact Nat.mod_lt _ (by omega)
         · intro o2 ho2
           rcases List.mem_cons.mp ho2 with rfl | ho2
           · exact hpc
           · exact hout o2 ho2)

end SAP1

namespace SAP1

/-- **C5**.  Whenever assembly succeeds the memory image has exactly 16
entries, each a byte value below 256; the pass-2 program counter stays in
0-15 — each step keeps it below 16 whenever the operation's tagged address
is below 16, which holds for every operation produced by pass 1 — and
advancing from program counter 15 wraps to 0 instead of erroring. -/
theorem assemble_image_bounds :
    (∀ src mem, assemble src = .ok mem →
      mem.length = 16 ∧ ∀ x ∈ mem, x < 256) ∧
    (∀ labels (st st2 : Mem × Nat) (o : Op), pass2Step labels st o = .ok st2 →
      o.2.2 < 16 → st2.2 < 16) ∧
    (∀ lines labels ops, first_pass lines = .ok (labels, ops) →
      ∀ o ∈ ops, o.2.2 < 16) ∧
    (∀ labels (mem : Mem) (tag : Nat),
      pass2Step labels (mem, 15) ("HLT", [], tag) = .ok (mem.set 15 0x90, 0)) := by
  refine ⟨?_, pass2Step_pc_lt, ?_, ?_⟩
  · intro src mem h
    simp only [assemble] at h
    split at h
    · cases h
    split at h
    · cases h
    next mem2 pc2 heq =>
      cases h
      exact pass2_memOK _ _ _ _ heq (by simp)
        (fun x hx => by rw [List.eq_of_mem_replicate hx]; omega)
  · intro lines labels ops h
    exact firstPassAux_tags lines [] [] 0 (labels, ops) h (by omega) (by simp)
  · intro labels mem tag
    have hl : List.lookup "HLT" ISA = some (9, false) := rfl
    simp [pass2Step, hl, encByte, Nat.shiftLeft_eq]

/-- Witness for `assemble_image_bounds` at the program `"HLT"`. -/
theorem assemble_image_bounds_witness :
    (0x90 :: List.replicate 15 0).length = 16 ∧
      ∀ x ∈ (0x90 :: List.replicate 15 0), x < 256 :=
  assemble_image_bounds.1 "HLT" (0x90 :: List.replicate 15 0) rfl

end SAP1

namespace SAP1

theorem definedLabels_cons (line : String) (rest : List String) :
    definedLabels (line :: rest) =
      (match lineLabel line with
       | some n => n :: definedLabels rest
       | none => definedLabels rest) := by
  unfold definedLabels
  rw [List.filterMap_cons]
  cases lineLabel line <;> rfl

theorem lineLabel_some (line : String) (h1 : line.toList.contains ':' = true)
    (h2 : ¬ pyStrip (splitFirst ':' line).1 = "") :
    lineLabel line = some (pyStrip (splitFirst ':' line).1) := by
  unfold lineLabel
  rw [if_pos h1, if_neg h2]

theorem lineLabel_none_no_colon (line : String)
    (h : ¬ line.toList.contains ':' = true) : lineLabel line = none := by
  unfold lineLabel
  rw [if_neg h]

theorem lineLabel_none_empty (line : String) (h1 : line.toList.contains ':' = true)
    (h2 : pyStrip (splitFirst ':' line).1 = "") : lineLabel line = none := by
  unfold lineLabel
  rw [if_pos h1, if_pos h2]

theorem lookup_snoc (labels : List (String × Nat)) (lab n : String) (pc : Nat) :
    List.lookup n (labels ++ [(lab, pc)]) =
      (List.lookup n labels).or (if n = lab then some pc else none) := by
  rw [List.lookup_append]
  congr 1
  rw [List.lookup_cons]
  by_cases h : n = lab
  · simp [h]
  · have hb : (n == lab) = false := by simp [h]
    simp [hb, h]

end SAP1

namespace SAP1

theorem definedLabels_cons_some {line lab : String} (rest : List String)
    (h : lineLabel line = some lab) :
    definedLabels (line :: rest) = lab :: definedLabels rest := by
  unfold definedLabels
  rw [List.filterMap_cons, h]

theorem definedLabels_cons_none {line : String} (rest : List String)
    (h : lineLabel line = none) :
    definedLabels (line :: rest) = definedLabels rest := by
  unfold definedLabels
  rw [List.filterMap_cons, h]

theorem firstPassAux_ok_unique :
    ∀ (lines : List String) (labels : List (String × Nat)) (out : List Op) (pc : Nat)
      (r : List (String × Nat) × List Op),
      firstPassAux lines labels out pc = .ok r → ∀ n,
      List.count n (definedLabels lines) +
        (if (List.lookup n labels).isSome then 1 else 0) ≤ 1 := by
  intro lines
  induction lines with
  | nil =>
    intro labels out pc r h n
    simp only [definedLabels, List.filterMap_nil, List.count_nil, Nat.zero_add]
    split <;> omega
  | cons line rest ih =>
    intro labels out pc r h n
    simp only [firstPassAux] at h
    by_cases hcol : line.toList.contains ':' = true
    · have hmem : ':' ∈ line.data := by simpa using hcol
      by_cases hlab : pyStrip (splitFirst ':' line).1 = ""
      · rw [definedLabels_cons_none rest (lineLabel_none_empty line hcol hlab)]
        simp [hcol, hmem, hlab] at h
        repeat' split at h
        all_goals first
          | cases h
          | exact ih _ _ _ r h n
      · rw [definedLabels_cons_some rest (lineLabel_some line hcol hlab)]
        by_cases hdup : (List.lookup (pyStrip (splitFirst ':' line).1) labels).isSome = true
        · simp [hcol, hmem, hlab, hdup] at h
        · simp [hcol, hmem, hlab, hdup] at h
          have hdup0 : (if (List.lookup (pyStrip (splitFirst ':' line).1) labels).isSome
              then 1 else 0) = 0 := by
            simp [hdup]
          have key : ∀ (out2 : List Op) (pc2 : Nat),
              firstPassAux rest (labels ++ [(pyStrip (splitFirst ':' line).1, pc)]) out2 pc2 =
                .ok r →
              List.count n (pyStrip (splitFirst ':' line).1 :: definedLabels rest) +
                (if (List.lookup n labels).isSome then 1 else 0) ≤ 1 := by
            intro out2 pc2 hrec
            have ih1 := ih _ _ _ r hrec n
            rw [lookup_snoc] at ih1
            by_cases hn : n = pyStrip (splitFirst ':' line).1
            · rw [hn] at ih1 ⊢
              rw [if_pos rfl] at ih1
              have hor : ((List.lookup (pyStrip (splitFirst ':' line).1) labels).or
                  (some pc)).isSome = true := by
                cases List.lookup (pyStrip (splitFirst ':' line).1) labels <;> rfl
              rw [hor] at ih1
              simp only [if_true] at ih1
              rw [List.count_cons_self, hdup0]
              omega
            · rw [if_neg hn, Option.or_none] at ih1
              rw [List.count_cons_of_ne hn]
              exact ih1
          repeat' split at h
          all_goals first
            | cases h
            | exact key _ _ h
    · have hmem : ':' ∉ line.data := by simpa using hcol
      rw [definedLabels_cons_none rest (lineLabel_none_no_colon line hcol)]
      simp [hcol, hmem] at h
      repeat' split at h
      all_goals first
        | cases h
        | exact ih _ _ _ r h n

end SAP1

namespace SAP1

theorem firstPassAux_dup_error :
    ∀ (lines : List String) (labels : List (String × Nat)) (out : List Op) (pc : Nat)
      (n : String),
      firstPassAux lines labels out pc = .error (.duplicateLabel n) →
      n ∈ definedLabels lines ∧
        ((List.lookup n labels).isSome = true ∨
          2 ≤ List.count n (definedLabels lines)) := by
  intro lines
  induction lines with
  | nil =>
    intro labels out pc n h
    simp [firstPassAux] at h
  | cons line rest ih =>
    intro labels out pc n h
    simp only [firstPassAux] at h
    by_cases hcol : line.toList.contains ':' = true
    · have hmem : ':' ∈ line.data := by simpa using hcol
      by_cases hlab : pyStrip (splitFirst ':' line).1 = ""
      · rw [definedLabels_cons_none rest (lineLabel_none_empty line hcol hlab)]
        simp [hcol, hmem, hlab] at h
        repeat' split at h
        all_goals first
          | cases h
          | exact ih _ _ _ n h
      · rw [definedLabels_cons_some rest (lineLabel_some line hcol hlab)]
        by_cases hdup : (List.lookup (pyStrip (splitFirst ':' line).1) labels).isSome = true
        · simp [hcol, hmem, hlab, hdup] at h
          -- the duplicate triggers here: h identifies n with the label
          rcases h with rfl
          exact ⟨List.mem_cons_self _ _, Or.inl hdup⟩
        · simp [hcol, hmem, hlab, hdup] at h
          have key : ∀ (out2 : List Op) (pc2 : Nat),
              firstPassAux rest (labels ++ [(pyStrip (splitFirst ':' line).1, pc)]) out2 pc2 =
                .error (.duplicateLabel n) →
              n ∈ pyStrip (splitFirst ':' line).1 :: definedLabels rest ∧
                ((List.lookup n labels).isSome = true ∨
                  2 ≤ List.count n (pyStrip (splitFirst ':' line).1 :: definedLabels rest)) := by
            intro out2 pc2 hrec
            obtain ⟨hm, hside⟩ := ih _ _ _ n hrec
            refine ⟨List.mem_cons_of_mem _ hm, ?_⟩
            rcases hside with hs | hc
            · rw [lookup_snoc] at hs
              by_cases hn : n = pyStrip (splitFirst ':' line).1
              · right
                rw [hn] at hm ⊢
                rw [List.count_cons_self]
                have hpos : 0 < List.count (pyStrip (splitFirst ':' line).1)
                    (definedLabels rest) := List.count_pos_iff.mpr hm
                omega
              · rw [if_neg hn, Option.or_none] at hs
                exact Or.inl hs
            · right
              by_cases hn : n = pyStrip (splitFirst ':' line).1
              · rw [hn] at hc ⊢
                rw [List.count_cons_self]
                omega
              · rw [List.count_cons_of_ne hn]
                exact hc
          repeat' split at h
          all_goals first
            | cases h
            | exact key _ _ h
    · have hmem : ':' ∉ line.data := by simpa using hcol
      rw [definedLabels_cons_none rest (lineLabel_none_no_colon line hcol)]
      simp [hcol, hmem] at h
      repeat' split at h
      all_goals first
        | cases h
        | exact ih _ _ _ n h

end SAP1

namespace SAP1

/-- **C7** (amended).  If no non-empty label name is defined on more than
one line, pass 1 never raises `DuplicateLabel`.  If some label is defined
on two different lines, pass 1 fails — with `DuplicateLabel` naming a label
that is genuinely defined more than once, unless an `ORG` directive earlier
in the sequence fails first with a missing/invalid-argument error. -/
theorem duplicate_label_detection :
    (∀ lines, (∀ n, List.count n (definedLabels lines) ≤ 1) →
      ∀ n, first_pass lines ≠ .error (.duplicateLabel n)) ∧
    (∀ lines n, 2 ≤ List.count n (definedLabels lines) →
      ∃ e, first_pass lines = .error e) ∧
    (∀ lines n, first_pass lines = .error (.duplicateLabel n) →
      2 ≤ List.count n (definedLabels lines)) := by
  have hdup2 : ∀ lines n, first_pass lines = .error (.duplicateLabel n) →
      2 ≤ List.count n (definedLabels lines) := by
    intro lines n h
    obtain ⟨_, hside⟩ := firstPassAux_dup_error lines [] [] 0 n h
    rcases hside with hs | hc
    · simp at hs
    · exact hc
  refine ⟨?_, ?_, hdup2⟩
  · intro lines huniq n hcontra
    have h2 := hdup2 lines n hcontra
    have h1 := huniq n
    omega
  · intro lines n h2
    cases hfp : first_pass lines with
    | error e => exact ⟨e, rfl⟩
    | ok r =>
      have h1 := firstPassAux_ok_unique lines [] [] 0 r hfp n
      simp at h1
      omega

/-- **C7** counterexample: the label `a` is defined on two different lines,
but pass 1 fails with the numeric-literal error of the earlier `ORG q` line,
not with `DuplicateLabel`. -/
theorem duplicate_label_detection_counterexample :
    lineLabel "a: HLT" = some "a" ∧
      first_pass ["ORG q", "a: HLT", "a: HLT"] = .error (.invalidNumeric "q") :=
  ⟨rfl, rfl⟩

/-- Witness for `duplicate_label_detection`: a genuine duplicate makes pass 1
fail. -/
theorem duplicate_label_detection_witness :
    ∃ e, first_pass ["a: HLT", "a: HLT"] = .error e :=
  duplicate_label_detection.2.1 ["a: HLT", "a: HLT"] "a" (by decide)

end SAP1
